import Mathlib

/-!
Verification of the crash-game repository: shallow embedding of the
database constraints (database_schema.sql, promo migration), the
user-stats triggers (database_schema.sql, fix_user_stats_trigger.sql),
the refund trigger, the store wagered-balance gate (frontend Store
component), the binary wire decoders (frontend websocket service), and
the round engine / crash-point generator (modelled from the spec and
GAME_CONFIG_README.md, since the backend engine source is not in the
repository snapshot).

Money amounts are embedded as rationals (the source uses DECIMAL(12,2)
and Python Decimal); machine integers never overflow in the modelled
paths, byte values are Fin 256.
-/

namespace CrashStars

/-- Transaction type column of the transactions table
(database_schema.sql): deposit, withdrawal, game_win, game_loss,
gift_purchase, referral_bonus, refund, plus game_bet used by
idx_unique_user_game_bet and promo_code_bonus added by the promo
migration; `other` stands for any further string. -/
inductive TxType where
  | gameWin
  | gameLoss
  | gameBet
  | deposit
  | withdrawal
  | referralBonus
  | giftPurchase
  | refund
  | promoCodeBonus
  | other
deriving DecidableEq, Repr

/-- Status column of the transactions table (database_schema.sql). -/
inductive TxStatus where
  | pending
  | completed
  | failed
  | refunded
deriving DecidableEq, Repr

/-- One row of the transactions table (database_schema.sql): the ledger
entry. `createdAt` is an abstract timestamp; JSONB extra_data and the
payment id columns are not needed by any claim and are omitted. -/
structure Tx where
  userId : ℕ
  gameId : Option ℕ
  txType : TxType
  amount : ℚ
  balanceAfter : ℚ
  multiplier : Option ℚ
  status : TxStatus
  createdAt : ℕ
deriving DecidableEq, Repr

/-- Balance cap from the check_max_balance constraint
(database_schema.sql line 196). -/
def maxBalance : ℚ := 999999999.99

/-- check_positive_balance constraint on users.balance
(database_schema.sql lines 191-192). -/
def check_positive_balance (balance : ℚ) : Bool :=
  decide (0 ≤ balance)

/-- check_max_balance constraint on users.balance
(database_schema.sql lines 195-196). -/
def check_max_balance (balance : ℚ) : Bool :=
  decide (balance ≤ maxBalance)

/-- check_positive_balance_after constraint on transactions
(database_schema.sql lines 209-210). -/
def check_positive_balance_after (t : Tx) : Bool :=
  decide (0 ≤ t.balanceAfter)

/-- Types required to carry a strictly positive amount by the
check_valid_transaction_amounts constraint in its final (promo
migration) form. -/
def positiveAmountTypes : List TxType :=
  [.gameWin, .deposit, .referralBonus, .withdrawal, .refund, .promoCodeBonus]

/-- Types required to carry a strictly negative amount by
check_valid_transaction_amounts. -/
def negativeAmountTypes : List TxType :=
  [.gameLoss, .giftPurchase]

/-- check_valid_transaction_amounts in its final form after the promo
migration (src/unnamed/part_002 lines 164-169): listed gain types must
have amount > 0, listed loss types amount < 0, any other type is
unconstrained. -/
def check_valid_transaction_amounts (t : Tx) : Bool :=
  (positiveAmountTypes.contains t.txType && decide (0 < t.amount))
  || (negativeAmountTypes.contains t.txType && decide (t.amount < 0))
  || (!positiveAmountTypes.contains t.txType
      && !negativeAmountTypes.contains t.txType)

/-- A user balance account together with the ledger rows committed for
it, as enforced by the users/transactions constraints. -/
structure BalanceState where
  balance : ℚ
  ledger : List Tx
deriving DecidableEq, Repr

/-- One balance-affecting operation: a transaction row to be inserted
together with the balance mutation it represents. -/
structure BalanceOp where
  userId : ℕ
  gameId : Option ℕ
  txType : TxType
  amount : ℚ
  multiplier : Option ℚ
  createdAt : ℕ
deriving DecidableEq, Repr

/-- Atomic commit of one balance-affecting operation: the balance is
mutated and the ledger row (with balance_after equal to the new
balance) is inserted in one database transaction, which commits only
if every CHECK constraint holds; otherwise nothing is applied. -/
def commitTx (st : BalanceState) (op : BalanceOp) : Option BalanceState :=
  let b2 := st.balance + op.amount
  let t : Tx :=
    { userId := op.userId, gameId := op.gameId, txType := op.txType
      amount := op.amount, balanceAfter := b2, multiplier := op.multiplier
      status := .completed, createdAt := op.createdAt }
  if check_positive_balance b2 && check_max_balance b2
      && check_positive_balance_after t && check_valid_transaction_amounts t
  then some { balance := b2, ledger := st.ledger ++ [t] }
  else none

/-- Run a sequence of balance-affecting operations; an operation whose
commit violates a constraint is rejected and leaves the state
unchanged. -/
def runOps (st : BalanceState) : List BalanceOp → BalanceState
  | [] => st
  | op :: rest => runOps ((commitTx st op).getD st) rest

/-- The balance invariant of claim C2: balance within [0, cap] and
every committed ledger row has non-negative balance_after. -/
def BalanceInv (st : BalanceState) : Prop :=
  0 ≤ st.balance ∧ st.balance ≤ maxBalance ∧
    ∀ t ∈ st.ledger, 0 ≤ t.balanceAfter

instance (st : BalanceState) : Decidable (BalanceInv st) := by
  unfold BalanceInv
  infer_instance

/-- Initial account state: users.balance defaults to 0.00 and no ledger
rows exist (database_schema.sql line 11). -/
def initialBalanceState : BalanceState := { balance := 0, ledger := [] }

/-- Rows covered by the partial unique index idx_unique_user_game_bet
(database_schema.sql line 223): type IN (game_loss, game_bet) AND
status = completed. -/
def idxBetCovered (t : Tx) : Bool :=
  (decide (t.txType = .gameLoss) || decide (t.txType = .gameBet))
    && decide (t.status = .completed)

/-- The partial unique index idx_unique_user_game_bet
(database_schema.sql lines 221-223): no two covered rows may share the
full key (user_id, game_id, created_at). Note the key includes
created_at (the partition column). -/
def idx_unique_user_game_bet (txs : List Tx) : Prop :=
  List.Pairwise
    (fun a b => idxBetCovered a → idxBetCovered b →
      (a.userId, a.gameId, a.createdAt) ≠ (b.userId, b.gameId, b.createdAt))
    txs

instance (txs : List Tx) : Decidable (idx_unique_user_game_bet txs) := by
  unfold idx_unique_user_game_bet
  infer_instance

/-- Completed bet rows a given user holds in a given round. -/
def betsOfUserInGame (txs : List Tx) (u g : ℕ) : List Tx :=
  txs.filter (fun t => idxBetCovered t
    && decide (t.userId = u) && decide (t.gameId = some g))

/-- First of two concurrent completed game_bet rows for user 1 in
round 1 (created_at 100). -/
def dupBet1 : Tx :=
  { userId := 1, gameId := some 1, txType := .gameBet, amount := 10
    balanceAfter := 90, multiplier := none, status := .completed
    createdAt := 100 }

/-- Second completed game_bet row for the same user 1 and round 1,
inserted a moment later (created_at 101). -/
def dupBet2 : Tx :=
  { userId := 1, gameId := some 1, txType := .gameBet, amount := 10
    balanceAfter := 80, multiplier := none, status := .completed
    createdAt := 101 }

/-- One row of the user_stats table (database_schema.sql lines 23-34);
the updated_at timestamp is omitted. -/
structure UserStatsRow where
  totalGames : ℕ
  gamesWon : ℕ
  gamesLost : ℕ
  totalWagered : ℚ
  totalWon : ℚ
  wageredBalance : ℚ
  bestMultiplier : ℚ
  avgMultiplier : ℚ
deriving DecidableEq, Repr

/-- The avg_multiplier computation shared verbatim by both versions of
update_user_stats_on_transaction: a running average over winning games
only, keeping the old value (or 0) on a loss or a NULL multiplier.
`cur = none` is the case where no user_stats row exists yet (the
SELECT INTO leaves current_stats NULL). -/
def newAvgMultiplier (cur : Option UserStatsRow) (isWin : Bool)
    (mult : Option ℚ) : ℚ :=
  match isWin, mult with
  | true, some m =>
    match cur with
    | none => m
    | some s =>
      if s.gamesWon = 0 then m
      else (s.avgMultiplier * s.gamesWon + m) / (s.gamesWon + 1)
  | _, _ => (cur.map (·.avgMultiplier)).getD 0

/-- update_user_stats_on_transaction as defined in database_schema.sql
lines 292-379 (the schema version): effect of the AFTER INSERT trigger
on the user's user_stats row. `cur` is the existing row (none when the
INSERT .. ON CONFLICT takes the insert branch); `betLookup` is the
result of the SELECT of the matching game_bet transaction. In the win
branch total_games is incremented only when games_won >= total_games
already held. Non-game transaction types leave the row unchanged. -/
def update_user_stats_schema (cur : Option UserStatsRow) (new : Tx)
    (betLookup : Option ℚ) : Option UserStatsRow :=
  if new.txType ≠ .gameWin ∧ new.txType ≠ .gameLoss then cur
  else
    let isWin := new.txType = .gameWin
    let betAmount := if isWin then betLookup.getD 0 else |new.amount|
    let winAmount := if isWin then new.amount - betLookup.getD 0 else 0
    let avg := newAvgMultiplier cur isWin new.multiplier
    if ¬ isWin then
      match cur with
      | none => some ⟨1, 0, 1, betAmount, 0, 0, 0, 0⟩
      | some s => some { s with
          totalGames := s.totalGames + 1
          gamesLost := s.gamesLost + 1
          totalWagered := s.totalWagered + betAmount }
    else
      match cur with
      | none =>
          some ⟨1, 1, 0, 0, winAmount, winAmount, new.multiplier.getD 0, avg⟩
      | some s => some { s with
          totalGames :=
            if s.totalGames ≤ s.gamesWon then s.totalGames + 1
            else s.totalGames
          gamesWon := s.gamesWon + 1
          totalWon := s.totalWon + winAmount
          wageredBalance := s.wageredBalance + winAmount
          bestMultiplier := max s.bestMultiplier (new.multiplier.getD 0)
          avgMultiplier := avg }

/-- update_user_stats_on_transaction as redefined in
fix_user_stats_trigger.sql lines 5-88 (the migration version):
identical to the schema version except that the win branch increments
total_games unconditionally. -/
def update_user_stats_migration (cur : Option UserStatsRow) (new : Tx)
    (betLookup : Option ℚ) : Option UserStatsRow :=
  if new.txType ≠ .gameWin ∧ new.txType ≠ .gameLoss then cur
  else
    let isWin := new.txType = .gameWin
    let betAmount := if isWin then betLookup.getD 0 else |new.amount|
    let winAmount := if isWin then new.amount - betLookup.getD 0 else 0
    let avg := newAvgMultiplier cur isWin new.multiplier
    if ¬ isWin then
      match cur with
      | none => some ⟨1, 0, 1, betAmount, 0, 0, 0, 0⟩
      | some s => some { s with
          totalGames := s.totalGames + 1
          gamesLost := s.gamesLost + 1
          totalWagered := s.totalWagered + betAmount }
    else
      match cur with
      | none =>
          some ⟨1, 1, 0, 0, winAmount, winAmount, new.multiplier.getD 0, avg⟩
      | some s => some { s with
          totalGames := s.totalGames + 1
          gamesWon := s.gamesWon + 1
          totalWon := s.totalWon + winAmount
          wageredBalance := s.wageredBalance + winAmount
          bestMultiplier := max s.bestMultiplier (new.multiplier.getD 0)
          avgMultiplier := avg }

/-- A reachable user_stats row with games_won < total_games, used to
exhibit the divergence of the two trigger versions. -/
def statsRowOneLossOneWin : UserStatsRow :=
  ⟨2, 1, 1, 10, 5, 5, 2, 2⟩

/-- A completed game_win transaction for the divergence check. -/
def winTxExample : Tx :=
  { userId := 1, gameId := some 3, txType := .gameWin, amount := 20
    balanceAfter := 110, multiplier := some 2, status := .completed
    createdAt := 200 }

/-- Status column of the payment_requests table
(database_schema.sql line 124). -/
inductive PaymentRequestStatus where
  | pending
  | approved
  | completed
  | canceled
deriving DecidableEq, Repr

/-- One row of the payment_requests table (database_schema.sql lines
117-129), restricted to the columns the refund trigger reads. -/
structure PaymentRequest where
  id : ℕ
  userId : ℕ
  giftId : ℕ
  priceStars : ℚ
  status : PaymentRequestStatus
deriving DecidableEq, Repr

/-- The per-user state mutated by the refund trigger: users.balance,
user_stats.wagered_balance and the transactions rows of the user. -/
structure UserAccount where
  balance : ℚ
  wageredBalance : ℚ
  txs : List Tx
deriving DecidableEq, Repr

/-- auto_refund_on_payment_cancel (database_schema.sql lines 386-432):
AFTER UPDATE trigger on payment_requests. When the status becomes
canceled and was not canceled before, it adds price_stars to the
balance, price_stars / 2 to the wagered balance, and inserts one
completed refund transaction whose amount is price_stars and whose
balance_after is the freshly updated balance (the SELECT inside the
trigger sees the UPDATE of the same transaction). Otherwise it does
nothing. `now` is the insertion timestamp. -/
def auto_refund_on_payment_cancel (oldStatus : PaymentRequestStatus)
    (new : PaymentRequest) (now : ℕ) (st : UserAccount) : UserAccount :=
  if new.status = .canceled ∧ oldStatus ≠ .canceled then
    let b2 := st.balance + new.priceStars
    { balance := b2
      wageredBalance := st.wageredBalance + new.priceStars / 2
      txs := st.txs ++
        [{ userId := new.userId, gameId := none, txType := .refund
           amount := new.priceStars, balanceAfter := b2, multiplier := none
           status := .completed, createdAt := now }] }
  else st

/-- calculateRequiredWagered from the Store component
(src/unnamed/part_003 lines 37-39): the eligible balance required for
a gift purchase is exactly 50 percent of the price. -/
def calculateRequiredWagered (price : ℚ) : ℚ :=
  price / 2

/-- calculateMissingWagered from the Store component
(src/unnamed/part_003 lines 41-44). -/
def calculateMissingWagered (price current : ℚ) : ℚ :=
  max 0 (calculateRequiredWagered price - current)

/-- The disabled condition of the purchase button in the Store
component (src/unnamed/part_003 lines 531-535): a purchase attempt is
blocked while another purchase is in flight, the raw balance is below
the price, or the wagered balance is below the required 50 percent. -/
def giftPurchaseDisabled (purchasing : Bool) (balance price wagered : ℚ) :
    Bool :=
  purchasing || decide (balance < price)
    || decide (wagered < calculateRequiredWagered price)

/-- getUint16 with big-endian byte order on a decoded byte array, as
used by the binary decoders in src/frontend/src/services/websocket.ts;
none models the RangeError a DataView read past the end throws. -/
def getUint16be (bs : List (Fin 256)) (i : ℕ) : Option ℕ :=
  match bs[i]?, bs[i + 1]? with
  | some hi, some lo => some (hi.val * 256 + lo.val)
  | _, _ => none

/-- statusMap of decodeBinaryGameState
(src/frontend/src/services/websocket.ts line 240). -/
def statusMap : List String :=
  ["waiting", "playing", "crashed"]

/-- The record decodeBinaryGameState returns
(src/frontend/src/services/websocket.ts lines 258-266); crash_point is
always null in the binary format and is omitted. Coefficients are the
rational values of the two-decimal strings the code builds with
toFixed(2). -/
structure DecodedGameState where
  coefficient : ℚ
  status : String
  countdown : ℕ
  crashed : Bool
  lastCrashCoefficient : ℚ
  gameJustCrashed : Bool
deriving DecidableEq, Repr

/-- decodeBinaryGameState (src/frontend/src/services/websocket.ts lines
212-272) on the byte array obtained from base64: none models every
caught exception path (short input, wrong message type), after which
the caller receives null. Out-of-range status bytes fall back to
"waiting" via the || fallback; flag bits 0, 1, 2 are crashed,
game_just_crashed, has_countdown; both coefficients are big-endian
uint16 values divided by 100. -/
def decodeBinaryGameState (bs : List (Fin 256)) :
    Option DecodedGameState :=
  if bs.length < 7 then none
  else
    bs[0]?.bind fun msgType =>
    bs[1]?.bind fun status =>
    bs[2]?.bind fun flags =>
    (getUint16be bs 3).bind fun coefInt =>
    (getUint16be bs 5).bind fun lastCoefInt =>
    if msgType.val ≠ 1 then none
    else
      some
        { coefficient := (coefInt : ℚ) / 100
          status := (statusMap[status.val]?).getD "waiting"
          countdown :=
            if flags.val.testBit 2 ∧ 7 < bs.length then
              ((bs[7]?).map (·.val)).getD 0
            else 0
          crashed := flags.val.testBit 0
          lastCrashCoefficient := (lastCoefInt : ℚ) / 100
          gameJustCrashed := flags.val.testBit 1 }

/-- The read loop of decodeBinaryCrashHistory: it attempts `n` uint16
reads starting at `offset`, stepping by 2; a single failed read raises
and the whole loop result is discarded (none). The loop count in the
source is (bytes.length - 1) / 2 in floating-point, so for even input
lengths the final read runs past the end. -/
def readCrashCoeffs (bs : List (Fin 256)) : ℕ → ℕ → Option (List ℚ)
  | 0, _ => some []
  | n + 1, offset =>
    match getUint16be bs offset with
    | none => none
    | some v =>
      (readCrashCoeffs bs n (offset + 2)).map (fun rest =>
        ((v : ℚ) / 100) :: rest)

/-- decodeBinaryCrashHistory (src/frontend/src/services/websocket.ts
lines 277-316): empty list on short input, wrong message type, or any
failed read (the catch-all returns []). The JS loop bound
(length - 1) / 2 is fractional for even lengths, making the iteration
count length / 2 rounded up over (length - 1), i.e. length / 2 in
natural division. -/
def decodeBinaryCrashHistory (bs : List (Fin 256)) : List ℚ :=
  if bs.length < 3 then []
  else
    (bs[0]?.bind fun msgType =>
      if msgType.val ≠ 2 then none
      else readCrashCoeffs bs (bs.length / 2) 1).getD []

/-- Concrete 7-byte game_state frame: type 1, status playing, no
flags, coefficient 2.00, last crash coefficient 3.00. -/
def gameStateFrame : List (Fin 256) :=
  [1, 1, 0, 0, 200, 1, 44]

/-- Concrete 3-byte crash_history frame: type 2 followed by the single
big-endian uint16 150, i.e. the coefficient 1.50. -/
def crashHistoryFrame : List (Fin 256) :=
  [2, 0, 150]

/-- One configured crash range {min, max, probability}
(GAME_CONFIG_README.md, crash_ranges). -/
structure CrashRange where
  low : ℚ
  high : ℚ
  probability : ℚ
deriving DecidableEq, Repr

/-- A rational is an exact multiple of 0.01, the finest supported money
precision: every configured range bound is written with at most two
decimals. -/
def isCents (x : ℚ) : Prop :=
  (x * 100).den = 1

instance (x : ℚ) : Decidable (isCents x) := by
  unfold isCents
  infer_instance

/-- Quantization of a value to two decimals, Decimal.quantize('0.01')
in the generation example of GAME_CONFIG_README.md lines 124-138:
rounding to the nearest multiple of 1/100. -/
def quantize2 (x : ℚ) : ℚ :=
  (round (x * 100) : ℤ) / 100

/-- Modelled from the spec: the cumulative-probability walk of the
crash point generator (GAME_CONFIG_README.md lines 126-133; the
backend engine source is not in the repository snapshot).  Selects the
first range whose cumulative probability reaches r1. -/
def selectRangeFrom : List CrashRange → ℚ → ℚ → Option CrashRange
  | [], _, _ => none
  | r :: rest, rand, cum =>
    let cum2 := cum + r.probability
    if rand ≤ cum2 then some r else selectRangeFrom rest rand cum2

/-- Modelled from the spec: crash point generation
(GAME_CONFIG_README.md lines 124-138 and spec section 4.1; the backend
engine source is not in the repository snapshot).  r1 selects the
range via the cumulative walk, r2 places the point uniformly inside it
and the result is quantized to two decimals. -/
def generateCrashPoint (ranges : List CrashRange) (r1 r2 : ℚ) : Option ℚ :=
  (selectRangeFrom ranges r1 0).map (fun rc =>
    quantize2 (rc.low + (rc.high - rc.low) * r2))

/-- The default crash_ranges configuration
(GAME_CONFIG_README.md lines 27-31). -/
def defaultCrashRanges : List CrashRange :=
  [⟨1.1, 3, 0.7⟩, ⟨3, 10, 0.2⟩, ⟨10, 50, 0.1⟩]

/-- Modelled from the spec: the publicly visible coefficient after t
ticks, coefficient(t) = max(1.00, growth_rate^t) (spec section 4.2;
the backend engine source is not in the repository snapshot). The
frontend independently clamps every received coefficient with
Math.max(1.0, raw) (src/frontend/src/components/Game/GameWebSocket.tsx
line 190). -/
def coefficient (g : ℚ) (t : ℕ) : ℚ :=
  max 1 (g ^ t)

/-- Round status (database_schema.sql and spec section 4.3). -/
inductive RoundStatus where
  | waiting
  | playing
  | crashed
deriving DecidableEq, Repr

/-- Modelled from the spec: the tick state of the round engine during
the PLAYING phase (spec sections 4.2-4.3). -/
structure EngineState where
  status : RoundStatus
  tick : ℕ
deriving DecidableEq, Repr

/-- Modelled from the spec: one tick of the round engine during
PLAYING (spec section 4.2): the tick count advances and the round
transitions to CRASHED the first time coefficient(t) reaches the
crash point. Ticks do nothing outside PLAYING. -/
def engineTick (g cp : ℚ) (s : EngineState) : EngineState :=
  match s.status with
  | .playing =>
    let t2 := s.tick + 1
    if cp ≤ coefficient g t2 then { status := .crashed, tick := t2 }
    else { status := .playing, tick := t2 }
  | _ => s

/-- Modelled from the spec: the engine after n ticks of a round that
entered PLAYING at tick 0. -/
def engineRun (g cp : ℚ) : ℕ → EngineState
  | 0 => { status := .playing, tick := 0 }
  | n + 1 => engineTick g cp (engineRun g cp n)

/-- Status of a bet in the current round (spec section 3, Bet). -/
inductive BetStatus where
  | opened
  | cashedOut (coef : ℚ)
  | lost
deriving DecidableEq, Repr

/-- Rejection reasons of the cashout call (spec sections 4.4 and 7). -/
inductive CashoutError where
  | roundAlreadyCrashed
  | roundNotStarted
  | noOpenBet
deriving DecidableEq, Repr

/-- Modelled from the spec: the state owned by the round authority
(spec section 4.3): round status, tick count, the secret crash point
and the bets of the round as an association list (userId, amount,
status). -/
structure RoundState where
  status : RoundStatus
  tick : ℕ
  crashPoint : ℚ
  bets : List (ℕ × ℚ × BetStatus)
deriving DecidableEq, Repr

/-- Bet lookup for a user in the round's bet list. -/
def findBet : List (ℕ × ℚ × BetStatus) → ℕ → Option (ℚ × BetStatus)
  | [], _ => none
  | (v, a, st) :: rest, u =>
    if v = u then some (a, st) else findBet rest u

/-- Replace the status of the user's bet. -/
def setBet : List (ℕ × ℚ × BetStatus) → ℕ → BetStatus →
    List (ℕ × ℚ × BetStatus)
  | [], _, _ => []
  | (v, a, st) :: rest, u, st2 =>
    if v = u then (v, a, st2) :: rest else (v, a, st) :: setBet rest u st2

/-- Settlement at the CRASHED transition (spec section 4.4): every bet
still open becomes lost; already settled bets are untouched. -/
def settleAll (bets : List (ℕ × ℚ × BetStatus)) :
    List (ℕ × ℚ × BetStatus) :=
  bets.map (fun b =>
    match b with
    | (u, a, .opened) => (u, a, .lost)
    | other => other)

/-- Modelled from the spec: the serialized cashout call (spec section
4.4; the backend arbitration source is not in the repository snapshot,
only its frontend caller handleCashout in
src/frontend/src/components/Game/GameWebSocket.tsx).  Valid only while
status = playing with an open bet and coefficient strictly below the
crash point, paying amount times the coefficient at processing;
processed after the CRASHED commit it is rejected as
RoundAlreadyCrashed with no state change. -/
def cashout (g : ℚ) (s : RoundState) (u : ℕ) :
    Except CashoutError (RoundState × ℚ) :=
  match s.status with
  | .crashed => .error .roundAlreadyCrashed
  | .waiting => .error .roundNotStarted
  | .playing =>
    match findBet s.bets u with
    | some (amt, .opened) =>
      if coefficient g s.tick < s.crashPoint then
        .ok ({ s with bets := setBet s.bets u (.cashedOut (coefficient g s.tick)) },
          amt * coefficient g s.tick)
      else .error .roundAlreadyCrashed
    | _ => .error .noOpenBet

/-- Modelled from the spec: one tick of the round authority (spec
sections 4.2-4.3): during PLAYING the tick advances, and at the first
tick whose coefficient reaches the crash point the CRASHED transition
is committed together with the loss settlement of every open bet. -/
def roundTick (g : ℚ) (s : RoundState) : RoundState :=
  match s.status with
  | .playing =>
    let t2 := s.tick + 1
    if s.crashPoint ≤ coefficient g t2 then
      { s with status := .crashed, tick := t2, bets := settleAll s.bets }
    else { s with tick := t2 }
  | _ => s

/-- A concrete playing round for the cashout witness: tick 10, crash
point 2, one open bet of 50 for user 7. -/
def playingRound : RoundState :=
  { status := .playing, tick := 10, crashPoint := 2
    bets := [(7, 50, .opened)] }

/-- A payment request cancelled by an admin, for the refund witness. -/
def canceledRequest : PaymentRequest :=
  { id := 5, userId := 1, giftId := 9, priceStars := 100, status := .canceled }

/-- Account state before the refund trigger fires. -/
def accountBeforeRefund : UserAccount :=
  { balance := 20, wageredBalance := 10, txs := [] }

/-- Two concrete balance-affecting operations (a deposit of 100, then
a game loss of 30) for the balance-invariant witness. -/
def sampleOps : List BalanceOp :=
  [ { userId := 1, gameId := none, txType := .deposit, amount := 100
      multiplier := none, createdAt := 1 }
  , { userId := 1, gameId := some 2, txType := .gameLoss, amount := -30
      multiplier := none, createdAt := 2 } ]

/-- The decoded record of gameStateFrame: status playing, coefficient
2.00, last crash coefficient 3.00, no flags. -/
def decodedFrame : DecodedGameState :=
  { coefficient := (200 : ℚ) / 100, status := "playing", countdown := 0
    crashed := false, lastCrashCoefficient := (300 : ℚ) / 100
    gameJustCrashed := false }

/-- A playing round at tick 0 whose crash point 2 is reached exactly
at tick 1 when the growth rate is 2, for the crash-settlement
witness. -/
def crashingRound : RoundState :=
  { status := .playing, tick := 0, crashPoint := 2
    bets := [(7, 50, .opened)] }

/-- Claim C8: a reward purchase is blocked until the wagered balance
reaches 50 percent of the price, regardless of the raw balance; the
required amount is exactly price / 2 and the missing amount is
max(0, price / 2 - current). -/
theorem c8_wagered_gate (price current balance : ℚ) (purchasing : Bool) :
    calculateRequiredWagered price = price / 2
  ∧ calculateMissingWagered price current = max 0 (price / 2 - current)
  ∧ (current < price / 2 →
      giftPurchaseDisabled purchasing balance price current = true) := by
  refine ⟨rfl, rfl, fun h => ?_⟩
  simp [giftPurchaseDisabled, calculateRequiredWagered, h]

/-- Witness for C8 at the spec scenario: eligible balance 40, price
100, raw balance 1000; the purchase is blocked. -/
theorem c8_wagered_gate_witness :
    giftPurchaseDisabled false 1000 100 40 = true :=
  (c8_wagered_gate 100 40 1000 false).2.2 (by norm_num)

/-- Claim C4: under the check_valid_transaction_amounts constraint,
every committed ledger row of kind game_win, deposit, referral_bonus,
refund or promo_code_bonus has strictly positive amount, and every row
of kind game_loss or gift_purchase has strictly negative amount. -/
theorem c4_signed_amount_matches_kind (t : Tx)
    (h : check_valid_transaction_amounts t = true) :
    (t.txType ∈ ([.gameWin, .deposit, .referralBonus, .refund,
        .promoCodeBonus] : List TxType) → 0 < t.amount)
  ∧ (t.txType ∈ ([.gameLoss, .giftPurchase] : List TxType) →
      t.amount < 0) := by
  unfold check_valid_transaction_amounts positiveAmountTypes
    negativeAmountTypes at h
  constructor <;> intro hmem <;>
    cases ht : t.txType <;> simp [ht] at hmem h ⊢ <;> exact h

/-- Witness for C4: a completed game_win row passing the constraint
has positive amount. -/
theorem c4_signed_amount_matches_kind_witness : 0 < winTxExample.amount :=
  (c4_signed_amount_matches_kind winTxExample (by decide)).1 (by decide)

/-- Claim C7: the auto_refund_on_payment_cancel trigger applies, on a
status update that newly sets canceled, exactly one refund: balance
grows by price_stars, wagered balance by price_stars / 2, and exactly
one completed refund transaction with amount price_stars and
balance_after equal to the post-refund balance is appended; any other
update leaves the account untouched. -/
theorem c7_auto_refund (oldStatus : PaymentRequestStatus)
    (new : PaymentRequest) (now : ℕ) (st : UserAccount) :
    ((new.status = .canceled ∧ oldStatus ≠ .canceled) →
      (auto_refund_on_payment_cancel oldStatus new now st).balance
          = st.balance + new.priceStars
      ∧ (auto_refund_on_payment_cancel oldStatus new now st).wageredBalance
          = st.wageredBalance + new.priceStars / 2
      ∧ (auto_refund_on_payment_cancel oldStatus new now st).txs
          = st.txs ++
            [{ userId := new.userId, gameId := none, txType := .refund
               amount := new.priceStars
               balanceAfter := st.balance + new.priceStars
               multiplier := none, status := .completed, createdAt := now }])
  ∧ (¬ (new.status = .canceled ∧ oldStatus ≠ .canceled) →
      auto_refund_on_payment_cancel oldStatus new now st = st) := by
  unfold auto_refund_on_payment_cancel
  constructor
  · intro h
    rw [if_pos h]
    exact ⟨rfl, rfl, rfl⟩
  · intro h
    rw [if_neg h]

/-- Witness for C7: cancelling a pending 100-star request credits the
balance by exactly 100. -/
theorem c7_auto_refund_witness :
    (auto_refund_on_payment_cancel .pending canceledRequest 300
        accountBeforeRefund).balance
      = accountBeforeRefund.balance + canceledRequest.priceStars :=
  ((c7_auto_refund .pending canceledRequest 300 accountBeforeRefund).1
    ⟨rfl, by decide⟩).1

/-- Claim C3, failing input: the partial unique index
idx_unique_user_game_bet keys on (user_id, game_id, created_at), so
two completed game_bet rows of the same user in the same round with
different created_at timestamps both satisfy the index, and the user
ends up holding two bets in one round - the duplicate is not rejected
at the database level, contrary to the index's own stated purpose. -/
theorem c3_duplicate_bet_not_rejected :
    idx_unique_user_game_bet [dupBet1, dupBet2]
  ∧ (betsOfUserInGame [dupBet1, dupBet2] 1 1).length = 2 := by
  decide

/-- Claim C9: the two versions of update_user_stats_on_transaction
diverge on every game_win insert hitting a row with
games_won < total_games (the schema version keeps total_games, the
migration version increments it) and agree on every game_loss
insert. -/
theorem c9_stats_trigger_divergence :
    (∀ (s : UserStatsRow) (new : Tx) (lk : Option ℚ),
      new.txType = .gameWin → s.gamesWon < s.totalGames →
        (update_user_stats_schema (some s) new lk).map (fun r => r.totalGames)
            = some s.totalGames
        ∧ (update_user_stats_migration (some s) new lk).map
              (fun r => r.totalGames)
            = some (s.totalGames + 1)
        ∧ update_user_stats_schema (some s) new lk
            ≠ update_user_stats_migration (some s) new lk)
  ∧ (∀ (cur : Option UserStatsRow) (new : Tx) (lk : Option ℚ),
      new.txType = .gameLoss →
        update_user_stats_schema cur new lk
          = update_user_stats_migration cur new lk) := by
  constructor
  · intro s new lk hw hlt
    have hnle : ¬ s.totalGames ≤ s.gamesWon := by omega
    have h1 : (update_user_stats_schema (some s) new lk).map
        (fun r => r.totalGames) = some s.totalGames := by
      unfold update_user_stats_schema
      simp [hw, hnle]
    have h2 : (update_user_stats_migration (some s) new lk).map
        (fun r => r.totalGames) = some (s.totalGames + 1) := by
      unfold update_user_stats_migration
      simp [hw]
    refine ⟨h1, h2, fun hcontra => ?_⟩
    rw [hcontra, h2] at h1
    simp at h1
  · intro cur new lk hl
    unfold update_user_stats_schema update_user_stats_migration
    simp only [hl]
    cases cur <;> rfl

/-- Witness for C9 at a concrete row with one win and one loss
recorded (games_won = 1 < total_games = 2) receiving a game_win. -/
theorem c9_stats_trigger_divergence_witness :
    (update_user_stats_schema (some statsRowOneLossOneWin) winTxExample
        none).map (fun r => r.totalGames)
      = some statsRowOneLossOneWin.totalGames
  ∧ (update_user_stats_migration (some statsRowOneLossOneWin) winTxExample
        none).map (fun r => r.totalGames)
      = some (statsRowOneLossOneWin.totalGames + 1) :=
  ⟨(c9_stats_trigger_divergence.1 statsRowOneLossOneWin winTxExample none
      rfl (by decide)).1,
   (c9_stats_trigger_divergence.1 statsRowOneLossOneWin winTxExample none
      rfl (by decide)).2.1⟩

theorem commitTx_preserves_inv {st st2 : BalanceState} {op : BalanceOp}
    (hc : commitTx st op = some st2) (h : BalanceInv st) :
    BalanceInv st2 := by
  simp only [commitTx] at hc
  split at hc
  case isTrue hcond =>
    rcases Option.some.inj hc with rfl
    have hb : check_positive_balance (st.balance + op.amount) = true := by
      simp only [Bool.and_eq_true] at hcond
      exact hcond.1.1.1
    have hm : check_max_balance (st.balance + op.amount) = true := by
      simp only [Bool.and_eq_true] at hcond
      exact hcond.1.1.2
    refine ⟨of_decide_eq_true hb, of_decide_eq_true hm, ?_⟩
    intro t ht
    rcases List.mem_append.mp ht with hold | hnew
    · exact h.2.2 t hold
    · rcases List.mem_singleton.mp hnew with rfl
      exact of_decide_eq_true hb
  case isFalse => exact absurd hc (by simp)

theorem runOps_preserves_inv (ops : List BalanceOp) (st : BalanceState)
    (h : BalanceInv st) : BalanceInv (runOps st ops) := by
  induction ops generalizing st with
  | nil => exact h
  | cons op rest ih =>
    show BalanceInv (runOps ((commitTx st op).getD st) rest)
    cases hc : commitTx st op with
    | none => simpa [hc] using ih st h
    | some st2 =>
      simp only [hc, Option.getD_some]
      exact ih st2 (commitTx_preserves_inv hc h)

/-- Claim C2: starting from any state satisfying the balance invariant
(in particular the initial one: balance 0, empty ledger), after any
sequence of balance-affecting operations - each committed atomically
under the users/transactions CHECK constraints, with violating
operations rejected whole - the balance lies within [0, 999999999.99]
and every committed ledger row has non-negative balance_after; applied
to every prefix of the sequence this bounds every observed instant. -/
theorem c2_balance_within_bounds (ops : List BalanceOp)
    (st : BalanceState) (h : BalanceInv st) :
    0 ≤ (runOps st ops).balance
  ∧ (runOps st ops).balance ≤ maxBalance
  ∧ ∀ t ∈ (runOps st ops).ledger, 0 ≤ t.balanceAfter :=
  runOps_preserves_inv ops st h

/-- Witness for C2: a deposit of 100 followed by a game loss of 30
from the initial state keeps the balance in bounds. -/
theorem c2_balance_within_bounds_witness :
    0 ≤ (runOps initialBalanceState sampleOps).balance
  ∧ (runOps initialBalanceState sampleOps).balance ≤ maxBalance
  ∧ ∀ t ∈ (runOps initialBalanceState sampleOps).ledger,
      0 ≤ t.balanceAfter :=
  c2_balance_within_bounds sampleOps initialBalanceState
    ⟨le_refl 0, by norm_num [initialBalanceState, maxBalance],
     by simp [initialBalanceState]⟩

theorem getUint16be_le {bs : List (Fin 256)} {i v : ℕ}
    (h : getUint16be bs i = some v) : v ≤ 65535 := by
  unfold getUint16be at h
  cases h1 : bs[i]? with
  | none => simp [h1] at h
  | some hi =>
    cases h2 : bs[i + 1]? with
    | none => simp [h1, h2] at h
    | some lo =>
      simp only [h1, h2, Option.some.injEq] at h
      have hhi := hi.isLt
      have hlo := lo.isLt
      omega

theorem div100_bounds {k : ℕ} (h : k ≤ 65535) :
    0 ≤ (k : ℚ) / 100 ∧ (k : ℚ) / 100 ≤ 655.35 := by
  constructor
  · positivity
  · rw [div_le_iff₀ (by norm_num)]
    calc (k : ℚ) ≤ 65535 := by exact_mod_cast h
    _ = 655.35 * 100 := by norm_num

theorem readCrashCoeffs_bounds {bs : List (Fin 256)} :
    ∀ (n offset : ℕ) (l : List ℚ), readCrashCoeffs bs n offset = some l →
      ∀ c ∈ l, ∃ k : ℕ, k ≤ 65535 ∧ c = (k : ℚ) / 100 := by
  intro n
  induction n with
  | zero =>
    intro offset l h c hc
    simp only [readCrashCoeffs, Option.some.injEq] at h
    subst h
    simp at hc
  | succ m ih =>
    intro offset l h c hc
    unfold readCrashCoeffs at h
    cases hg : getUint16be bs offset with
    | none => rw [hg] at h; simp at h
    | some v =>
      rw [hg] at h
      cases hr : readCrashCoeffs bs m (offset + 2) with
      | none => rw [hr] at h; simp at h
      | some rest =>
        rw [hr] at h
        simp only [Option.map_some', Option.some.injEq] at h
        subst h
        rcases List.mem_cons.mp hc with rfl | hmem
        · exact ⟨v, getUint16be_le hg, rfl⟩
        · exact ih (offset + 2) rest hr c hmem

/-- Claim C10: the binary wire decoders are total (modelled here as
total functions into Option and List, mirroring the catch-all
exception handlers returning null and []): every successfully decoded
game state has a status among waiting/playing/crashed and
coefficients that are multiples of 0.01 within [0, 655.35] (the
uint16 / 100 encoding bound), and every entry of a decoded crash
history is such a multiple, with [] returned on malformed input. -/
theorem c10_binary_decoders_safe (bs : List (Fin 256)) :
    (∀ gs, decodeBinaryGameState bs = some gs →
      gs.status ∈ statusMap
      ∧ (∃ k : ℕ, k ≤ 65535 ∧ gs.coefficient = (k : ℚ) / 100)
      ∧ 0 ≤ gs.coefficient ∧ gs.coefficient ≤ 655.35
      ∧ (∃ k : ℕ, k ≤ 65535 ∧ gs.lastCrashCoefficient = (k : ℚ) / 100)
      ∧ 0 ≤ gs.lastCrashCoefficient ∧ gs.lastCrashCoefficient ≤ 655.35)
  ∧ (∀ c ∈ decodeBinaryCrashHistory bs,
      (∃ k : ℕ, k ≤ 65535 ∧ c = (k : ℚ) / 100) ∧ 0 ≤ c ∧ c ≤ 655.35) := by
  constructor
  · intro gs h
    unfold decodeBinaryGameState at h
    by_cases hlen : bs.length < 7
    · rw [if_pos hlen] at h
      exact absurd h (by simp)
    · rw [if_neg hlen] at h
      cases e1 : bs[0]? with
      | none => rw [e1] at h; exact absurd h (by simp)
      | some msgType =>
      rw [e1] at h
      cases e2 : bs[1]? with
      | none => rw [e2] at h; exact absurd h (by simp)
      | some status =>
      rw [e2] at h
      cases e3 : bs[2]? with
      | none => rw [e3] at h; exact absurd h (by simp)
      | some flags =>
      rw [e3] at h
      cases e4 : getUint16be bs 3 with
      | none => rw [e4] at h; exact absurd h (by simp)
      | some coefInt =>
      rw [e4] at h
      cases e5 : getUint16be bs 5 with
      | none => rw [e5] at h; exact absurd h (by simp)
      | some lastCoefInt =>
      rw [e5] at h
      simp only [Option.some_bind] at h
      by_cases ht : msgType.val ≠ 1
      · rw [if_pos ht] at h
        exact absurd h (by simp)
      · rw [if_neg ht] at h
        rcases Option.some.inj h with rfl
        refine ⟨?_, ⟨coefInt, getUint16be_le e4, rfl⟩,
          (div100_bounds (getUint16be_le e4)).1,
          (div100_bounds (getUint16be_le e4)).2,
          ⟨lastCoefInt, getUint16be_le e5, rfl⟩,
          (div100_bounds (getUint16be_le e5)).1,
          (div100_bounds (getUint16be_le e5)).2⟩
        cases hsm : statusMap[status.val]? with
        | none => simp [hsm, statusMap]
        | some s =>
          simp only [hsm, Option.getD_some]
          exact List.getElem?_mem hsm
  · intro c hc
    unfold decodeBinaryCrashHistory at hc
    by_cases hlen : bs.length < 3
    · rw [if_pos hlen] at hc
      simp at hc
    · rw [if_neg hlen] at hc
      cases e1 : bs[0]? with
      | none => rw [e1] at hc; simp at hc
      | some msgType =>
      rw [e1] at hc
      simp only [Option.some_bind] at hc
      by_cases ht : msgType.val ≠ 2
      · rw [if_pos ht] at hc
        simp at hc
      · rw [if_neg ht] at hc
        cases hr : readCrashCoeffs bs (bs.length / 2) 1 with
        | none => rw [hr] at hc; simp at hc
        | some l =>
          rw [hr] at hc
          simp only [Option.getD_some] at hc
          rcases readCrashCoeffs_bounds (bs.length / 2) 1 l hr c hc
            with ⟨k, hk1, rfl⟩
          exact ⟨⟨k, hk1, rfl⟩, (div100_bounds hk1).1, (div100_bounds hk1).2⟩

/-- Witness for C10: a concrete game_state frame decodes to status
playing, and the decoded 1.50 crash history entry is in bounds. -/
theorem c10_binary_decoders_safe_witness :
    decodedFrame.status ∈ statusMap
  ∧ 0 ≤ (150 : ℚ) / 100 ∧ (150 : ℚ) / 100 ≤ 655.35 :=
  ⟨((c10_binary_decoders_safe gameStateFrame).1 decodedFrame (by rfl)).1,
   ((c10_binary_decoders_safe crashHistoryFrame).2 ((150 : ℚ) / 100)
      (List.Mem.head _)).2⟩

/-- Claim C6: for every tick count t the visible coefficient equals
max(1.00, growth_rate ^ t), is never below 1.00, is non-decreasing in
t (for any growth rate at least 1, as the 1.0-1.1 configuration range
prescribes), and the engine transitions to CRASHED exactly at the
first tick N whose coefficient reaches the crash point, staying
crashed with the tick frozen at N afterwards. -/
theorem c6_coefficient_growth (g cp : ℚ) (N : ℕ) (hg : 1 ≤ g)
    (hcp : 1 < cp) (hN : cp ≤ coefficient g N)
    (hfirst : ∀ m, m < N → coefficient g m < cp) :
    (∀ t, coefficient g t = max 1 (g ^ t))
  ∧ (∀ t, 1 ≤ coefficient g t)
  ∧ (∀ s t, s ≤ t → coefficient g s ≤ coefficient g t)
  ∧ (∀ n, (n < N → engineRun g cp n = ⟨.playing, n⟩)
        ∧ (N ≤ n → engineRun g cp n = ⟨.crashed, N⟩)) := by
  have hNpos : 0 < N := by
    by_contra hn
    have h0 : N = 0 := by omega
    rw [h0] at hN
    have h1 : coefficient g 0 = 1 := by simp [coefficient]
    rw [h1] at hN
    exact absurd (lt_of_lt_of_le hcp hN) (lt_irrefl 1)
  refine ⟨fun t => rfl, fun t => le_max_left 1 _, ?_, ?_⟩
  · intro s t hst
    exact max_le_max (le_refl 1) (pow_le_pow_right₀ hg hst)
  · intro n
    induction n with
    | zero =>
      refine ⟨fun _ => rfl, fun h0 => absurd h0 (by omega)⟩
    | succ m ih =>
      constructor
      · intro hlt
        have hrun := ih.1 (by omega)
        show engineTick g cp (engineRun g cp m) = _
        rw [hrun]
        unfold engineTick
        simp only
        rw [if_neg (not_le.mpr (hfirst (m + 1) hlt))]
      · intro hle
        rcases Nat.lt_or_ge m N with hmN | hmN
        · have hNm : N = m + 1 := by omega
          have hrun := ih.1 hmN
          show engineTick g cp (engineRun g cp m) = _
          rw [hrun]
          unfold engineTick
          simp only
          rw [if_pos (hNm ▸ hN)]
          rw [hNm]
        · have hrun := ih.2 hmN
          show engineTick g cp (engineRun g cp m) = _
          rw [hrun]
          rfl

/-- Witness for C6: with growth rate 2 and crash point 1.5 the first
crashing tick is 1, and after 5 ticks the engine is crashed with the
tick frozen at 1. -/
theorem c6_coefficient_growth_witness :
    engineRun 2 (3 / 2) 5 = ⟨.crashed, 1⟩ :=
  ((c6_coefficient_growth 2 (3 / 2) 1 (by norm_num) (by norm_num)
      (by rw [coefficient]; rw [max_eq_right (by norm_num : (1 : ℚ) ≤ 2 ^ 1)]
          norm_num)
      (by intro m hm
          have hm0 : m = 0 := by omega
          rw [hm0, coefficient]
          norm_num)).2.2.2 5).2 (by omega)

theorem selectRangeFrom_mem :
    ∀ (ranges : List CrashRange) (r cum : ℚ) (rc : CrashRange),
      selectRangeFrom ranges r cum = some rc → rc ∈ ranges := by
  intro ranges
  induction ranges with
  | nil => intro r cum rc h; simp [selectRangeFrom] at h
  | cons a rest ih =>
    intro r cum rc h
    simp only [selectRangeFrom] at h
    split at h
    · rcases Option.some.inj h with rfl
      exact List.mem_cons_self a rest
    · exact List.mem_cons_of_mem a (ih r _ rc h)

theorem round_mono_le {x y : ℚ} (h : x ≤ y) : round x ≤ round y := by
  rw [round_eq, round_eq]
  exact Int.floor_le_floor (by linarith)

theorem isCents_mul_eq (x : ℚ) (h : isCents x) :
    x * 100 = ((x * 100).num : ℚ) :=
  ((Rat.den_eq_one_iff _).mp h).symm

theorem quantize2_ge {lo v : ℚ} (hcents : isCents lo) (hle : lo ≤ v) :
    lo ≤ quantize2 v := by
  unfold quantize2
  have h1 := isCents_mul_eq lo hcents
  have h2 : round (lo * 100) ≤ round (v * 100) :=
    round_mono_le (mul_le_mul_of_nonneg_right hle (by norm_num))
  have h3 : round (lo * 100) = (lo * 100).num := by
    conv_lhs => rw [h1]
    exact round_intCast _
  have h4 : lo = ((lo * 100).num : ℚ) / 100 := by
    rw [← h1]
    field_simp
  rw [h4]
  have h5 : ((lo * 100).num : ℚ) ≤ ((round (v * 100) : ℤ) : ℚ) := by
    exact_mod_cast h3 ▸ h2
  exact (div_le_div_iff_of_pos_right (by norm_num : (0 : ℚ) < 100)).mpr h5

theorem quantize2_le {hi v : ℚ} (hcents : isCents hi) (hle : v ≤ hi) :
    quantize2 v ≤ hi := by
  unfold quantize2
  have h1 := isCents_mul_eq hi hcents
  have h2 : round (v * 100) ≤ round (hi * 100) :=
    round_mono_le (mul_le_mul_of_nonneg_right hle (by norm_num))
  have h3 : round (hi * 100) = (hi * 100).num := by
    conv_lhs => rw [h1]
    exact round_intCast _
  have h4 : hi = ((hi * 100).num : ℚ) / 100 := by
    rw [← h1]
    field_simp
  rw [h4]
  have h5 : ((round (v * 100) : ℤ) : ℚ) ≤ ((hi * 100).num : ℚ) := by
    exact_mod_cast h3 ▸ h2
  exact (div_le_div_iff_of_pos_right (by norm_num : (0 : ℚ) < 100)).mpr h5

/-- Claim C5: the crash point generator walks cumulative probabilities
with r1 to select a range, places the point at min + (max - min) * r2
and rounds to two decimals (this is the definition of
generateCrashPoint, modelled from the documented algorithm); whenever
the configured ranges lie within [1.00, max_coefficient] with
two-decimal bounds and r2 is drawn from [0, 1), the produced crash
point lies within [1.00, max_coefficient]. -/
theorem c5_crash_point_in_range (ranges : List CrashRange)
    (maxCoef r1 r2 : ℚ)
    (hr : ∀ rc ∈ ranges, 1 ≤ rc.low ∧ rc.low ≤ rc.high
      ∧ rc.high ≤ maxCoef ∧ isCents rc.low ∧ isCents rc.high)
    (h2a : 0 ≤ r2) (h2b : r2 ≤ 1) :
    ∀ cp, generateCrashPoint ranges r1 r2 = some cp →
      1 ≤ cp ∧ cp ≤ maxCoef := by
  intro cp h
  unfold generateCrashPoint at h
  cases hs : selectRangeFrom ranges r1 0 with
  | none => rw [hs] at h; simp at h
  | some rc =>
    rw [hs] at h
    simp only [Option.map_some', Option.some.injEq] at h
    subst h
    rcases hr rc (selectRangeFrom_mem ranges r1 0 rc hs)
      with ⟨h1, hlh, hhm, hcl, hch⟩
    have hv1 : rc.low ≤ rc.low + (rc.high - rc.low) * r2 := by nlinarith
    have hv2 : rc.low + (rc.high - rc.low) * r2 ≤ rc.high := by nlinarith
    exact ⟨le_trans h1 (quantize2_ge hcl hv1),
      le_trans (quantize2_le hch hv2) hhm⟩

/-- Witness for C5: with the default ranges, max_coefficient 100 and
r1 = r2 = 1/2 the generator picks the range [1.1, 3) and yields 2.05,
which lies within [1.00, 100]. -/
theorem c5_crash_point_in_range_witness :
    (1 : ℚ) ≤ 205 / 100 ∧ (205 / 100 : ℚ) ≤ 100 :=
  c5_crash_point_in_range defaultCrashRanges 100 (1 / 2) (1 / 2)
    (by
      intro rc hmem
      fin_cases hmem
      · exact ⟨by norm_num, by norm_num, by norm_num,
          by unfold isCents
             rw [show (1.1 : ℚ) * 100 = ((110 : ℕ) : ℚ) from by norm_num]
             exact Rat.den_natCast 110,
          by unfold isCents
             rw [show (3 : ℚ) * 100 = ((300 : ℕ) : ℚ) from by norm_num]
             exact Rat.den_natCast 300⟩
      · exact ⟨by norm_num, by norm_num, by norm_num,
          by unfold isCents
             rw [show (3 : ℚ) * 100 = ((300 : ℕ) : ℚ) from by norm_num]
             exact Rat.den_natCast 300,
          by unfold isCents
             rw [show (10 : ℚ) * 100 = ((1000 : ℕ) : ℚ) from by norm_num]
             exact Rat.den_natCast 1000⟩
      · exact ⟨by norm_num, by norm_num, by norm_num,
          by unfold isCents
             rw [show (10 : ℚ) * 100 = ((1000 : ℕ) : ℚ) from by norm_num]
             exact Rat.den_natCast 1000,
          by unfold isCents
             rw [show (50 : ℚ) * 100 = ((5000 : ℕ) : ℚ) from by norm_num]
             exact Rat.den_natCast 5000⟩)
    (by norm_num) (by norm_num) (205 / 100)
    (by
      have hsel : selectRangeFrom defaultCrashRanges (1 / 2) 0
          = some ⟨1.1, 3, 0.7⟩ := by
        unfold defaultCrashRanges selectRangeFrom
        rw [if_pos (by norm_num : (1 / 2 : ℚ) ≤ 0 + 0.7)]
      unfold generateCrashPoint
      rw [hsel]
      simp only [Option.map_some', Option.some.injEq]
      unfold quantize2
      rw [show ((⟨1.1, 3, 0.7⟩ : CrashRange).low
          + ((⟨1.1, 3, 0.7⟩ : CrashRange).high
            - (⟨1.1, 3, 0.7⟩ : CrashRange).low) * (1 / 2)) * 100
          = (205 : ℚ) from by norm_num]
      rw [round_ofNat]
      norm_num)

theorem findBet_settleAll (bets : List (ℕ × ℚ × BetStatus)) (u : ℕ)
    (amt : ℚ) (h : findBet bets u = some (amt, .opened)) :
    findBet (settleAll bets) u = some (amt, .lost) := by
  induction bets with
  | nil => simp [findBet] at h
  | cons b rest ih =>
    rcases b with ⟨v, a, st⟩
    simp only [findBet] at h
    by_cases hv : v = u
    · rw [if_pos hv] at h
      rcases Option.some.inj h with h2
      have ha : a = amt := (Prod.mk.injEq _ _ _ _ ▸ h2).1
      have hst : st = .opened := (Prod.mk.injEq _ _ _ _ ▸ h2).2
      subst ha hst
      simp [settleAll, findBet, hv]
    · rw [if_neg hv] at h
      cases st <;> simpa [settleAll, findBet, hv] using ih h

/-- Claim C1: for a user holding an open bet, a cashout succeeds if
and only if it is processed while the round status is playing and the
coefficient is strictly below the crash point; once the round is
crashed every cashout attempt is rejected as RoundAlreadyCrashed, and
the tick that commits the CRASHED transition settles the still-open
bet as a loss, after which every cashout of every user is rejected as
RoundAlreadyCrashed. -/
theorem c1_cashout_race (g : ℚ) (s : RoundState) (u : ℕ) (amt : ℚ)
    (hbet : findBet s.bets u = some (amt, .opened)) :
    ((∃ r, cashout g s u = .ok r)
      ↔ (s.status = .playing ∧ coefficient g s.tick < s.crashPoint))
  ∧ (s.status = .crashed → cashout g s u = .error .roundAlreadyCrashed)
  ∧ (s.status = .playing → s.crashPoint ≤ coefficient g (s.tick + 1) →
      (roundTick g s).status = .crashed
      ∧ findBet (roundTick g s).bets u = some (amt, .lost)
      ∧ ∀ v, cashout g (roundTick g s) v = .error .roundAlreadyCrashed) := by
  refine ⟨?_, ?_, ?_⟩
  · cases hs : s.status with
    | crashed =>
      constructor
      · intro ⟨r, hr⟩
        unfold cashout at hr
        rw [hs] at hr
        exact absurd hr (by simp)
      · intro ⟨h1, _⟩
        exact absurd h1 (by simp)
    | waiting =>
      constructor
      · intro ⟨r, hr⟩
        unfold cashout at hr
        rw [hs] at hr
        exact absurd hr (by simp)
      · intro ⟨h1, _⟩
        exact absurd h1 (by simp)
    | playing =>
      constructor
      · intro ⟨r, hr⟩
        unfold cashout at hr
        rw [hs, hbet] at hr
        simp only [] at hr
        by_cases hc : coefficient g s.tick < s.crashPoint
        · exact ⟨rfl, hc⟩
        · rw [if_neg hc] at hr
          exact absurd hr (by simp)
      · intro ⟨_, hc⟩
        refine ⟨({ s with
            bets := setBet s.bets u (.cashedOut (coefficient g s.tick)) },
          amt * coefficient g s.tick), ?_⟩
        unfold cashout
        rw [hs, hbet]
        simp only []
        rw [if_pos hc]
  · intro hs
    unfold cashout
    rw [hs]
  · intro hs hc
    have hcrash : roundTick g s =
        { status := .crashed, tick := s.tick + 1,
          crashPoint := s.crashPoint, bets := settleAll s.bets } := by
      unfold roundTick
      rw [hs]
      simp only []
      rw [if_pos hc]
    refine ⟨by rw [hcrash], ?_, ?_⟩
    · rw [hcrash]
      exact findBet_settleAll s.bets u amt hbet
    · intro v
      unfold cashout
      rw [hcrash]

/-- Witness for C1: a round at tick 0 with crash point 2 and growth
rate 2; after crash the cashout is rejected, the tick that commits the
crash settles user 7's open 50-star bet as lost. -/
theorem c1_cashout_race_witness :
    cashout 2 { crashingRound with status := .crashed } 7
        = .error .roundAlreadyCrashed
  ∧ (roundTick 2 crashingRound).status = .crashed
  ∧ findBet (roundTick 2 crashingRound).bets 7 = some (50, .lost) :=
  ⟨(c1_cashout_race 2 { crashingRound with status := .crashed } 7 50
      (by rfl)).2.1 rfl,
   ((c1_cashout_race 2 crashingRound 7 50 (by rfl)).2.2 rfl
      (by simp only [crashingRound, coefficient]
          rw [max_eq_right (by norm_num : (1 : ℚ) ≤ 2 ^ (0 + 1))]
          norm_num)).1,
   ((c1_cashout_race 2 crashingRound 7 50 (by rfl)).2.2 rfl
      (by simp only [crashingRound, coefficient]
          rw [max_eq_right (by norm_num : (1 : ℚ) ≤ 2 ^ (0 + 1))]
          norm_num)).2.1⟩

end CrashStars
